import Mathlib

/-!
Verification of the `let_them_review` orchestration engine.

Shallow embedding, in Lean 4, of the core logic of the `let_them_review`
repository: the ReviewBot review pipeline (`src/review-bot/reviewBot.js`),
the FixBot fix pipeline (`src/fix-bot/fixBot.js`), the GitHub utility
filters (`src/utils/github.js`), the MCP response parsing
(`src/mcp/client.js`) and the static configuration
(`src/config/config.js`).

Text is modelled as `List Char` (JavaScript strings); asynchronous
fallible calls to external services (GitHub API, Claude API, local
filesystem) are modelled as explicit `Except`/`Option`-valued oracle
parameters, so every embedded function is a pure, executable Lean
function.  Side effects (posted comments, posted reviews, file writes,
analysis invocations) are reified as explicit event traces returned by
the embedded functions.
-/

/-- JavaScript strings are modelled as lists of characters. -/
abbrev Str := List Char

/-- Substring test, mirroring JavaScript `text.includes(pat)`:
`pat` occurs contiguously somewhere inside `text`. -/
def includesStr (text pat : Str) : Bool :=
  match text with
  | [] => pat.isEmpty
  | _ :: rest => (pat.isPrefixOf text) || includesStr rest pat

/-- An issue record, as produced by the analysis JSON schema and consumed
by FixBot (`filename`, `type`, `severity`, `line`, `description`,
`suggestion` — see the mock issue in `extractIssuesFromComments` and the
schema in `buildAnalysisPrompt`). -/
structure Issue where
  filename : Str
  type : Str
  severity : Str
  line : Option Nat
  description : Str
  suggestion : Str
deriving DecidableEq

/-- An analysis result, as described by the JSON schema requested in
`buildAnalysisPrompt` and produced by `parseResponse`. -/
structure Analysis where
  summary : Str
  issues : List Issue
  overallRating : Str
  recommendations : List Str
deriving DecidableEq

/-- One changed file of a pull request, with the fields the pipelines
read: `filename`, `status`, `additions`, `deletions`, `patch`. -/
structure PRFile where
  filename : Str
  status : Str
  additions : Nat
  deletions : Nat
  patch : Option Str
deriving DecidableEq

/-- Result of `FixBot.parseFixRequest`: either `shouldFix: false`, or
`shouldFix: true` with the `type` and `scope` fields of the returned
object. -/
inductive FixRequest where
  | noFix : FixRequest
  | fix (type scope : Str) : FixRequest
deriving DecidableEq

/-- Embedding of `FixBot.parseFixRequest` (src/fix-bot/fixBot.js:71-102):
lowercase the comment, return `shouldFix: false` unless it contains
`@fixbot`; if it contains `apply` or `fix`, return general/"all" when it
also contains `all` and specific/"targeted" otherwise; else fall through
to general/"suggested". -/
def parseFixRequest (commentBody : Str) : FixRequest :=
  let normalizedComment := commentBody.map Char.toLower
  if !(includesStr normalizedComment "@fixbot".toList) then
    FixRequest.noFix
  else if includesStr normalizedComment "apply".toList ||
          includesStr normalizedComment "fix".toList then
    if includesStr normalizedComment "all".toList then
      FixRequest.fix "general".toList "all".toList
    else
      FixRequest.fix "specific".toList "targeted".toList
  else
    FixRequest.fix "general".toList "suggested".toList

/-- The issue-type allowlist used by FixBot's auto-fix filter
(src/fix-bot/fixBot.js:298). -/
def fixableTypes : List Str :=
  ["style".toList, "performance".toList, "refactor".toList]

/-- Embedding of the risk-classifier predicate used in
`analyzeAndFixFile` (src/fix-bot/fixBot.js:297-300):
`['style','performance','refactor'].includes(issue.type) &&
issue.severity !== 'high'`. -/
def isAutoFixable (issue : Issue) : Bool :=
  fixableTypes.contains issue.type && issue.severity != "high".toList

/-- A per-file review record as accumulated by
`ReviewBot.reviewPullRequest`: the analyzed file together with its
analysis (the `context` field carries no further data relevant here). -/
structure Review where
  file : PRFile
  analysis : Analysis
deriving DecidableEq

/-- Embedding of the `totalIssues` aggregate of
`ReviewBot.generateSummary` (src/review-bot/reviewBot.js:135):
`reviews.reduce((sum, review) => sum + review.analysis.issues.length, 0)`. -/
def totalIssues (reviews : List Review) : Nat :=
  reviews.foldl (fun sum review => sum + review.analysis.issues.length) 0

/-- Embedding of the `highSeverityIssues` aggregate of
`ReviewBot.generateSummary` (src/review-bot/reviewBot.js:136-137):
the global count of issues whose severity is `high`. -/
def highSeverityIssues (reviews : List Review) : Nat :=
  reviews.foldl
    (fun sum review =>
      sum + (review.analysis.issues.filter
        (fun issue => issue.severity == "high".toList)).length) 0

/-- Embedding of the `overallAssessment` selection of
`ReviewBot.generateSummary` (src/review-bot/reviewBot.js:140-152). -/
def overallAssessment (reviews : List Review) : Str :=
  if highSeverityIssues reviews > 0 then
    "❌ **CHANGES REQUESTED** - High severity issues found".toList
  else if totalIssues reviews > 5 then
    "⚠️ **NEEDS IMPROVEMENT** - Multiple issues found".toList
  else if totalIssues reviews > 0 then
    "📝 **APPROVED WITH SUGGESTIONS** - Minor issues found".toList
  else
    "✅ **APPROVED** - Code looks good!".toList

/-- Embedding of the review event selection of
`ReviewBot.generateSummary` (src/review-bot/reviewBot.js:158):
`highSeverityIssues > 0 ? 'REQUEST_CHANGES' : 'COMMENT'`. -/
def reviewEvent (reviews : List Review) : Str :=
  if highSeverityIssues reviews > 0 then "REQUEST_CHANGES".toList
  else "COMMENT".toList

/-- The opening-brace character. -/
def lbrace : Char := Char.ofNat 123

/-- The closing-brace character. -/
def rbrace : Char := Char.ofNat 125

/-- Embedding of the JSON-substring extraction in
`MCPClient.parseResponse` (src/mcp/client.js:175): the greedy regex
match from the first opening brace through the last closing brace after
it, or nothing when no such span exists. -/
def extractJson (s : Str) : Option Str :=
  match s.dropWhile (fun c => c != lbrace) with
  | [] => none
  | c :: tail =>
    let r := tail.reverse.dropWhile (fun c => c != rbrace)
    if r.isEmpty then none else some (c :: r.reverse)

/-- Embedding of `MCPClient.parseTextResponse`
(src/mcp/client.js:217-224): the fallback used when no JSON object
substring is found — the first 200 characters of the raw response with
an ellipsis appended, no issues, rating unknown, one manual-review
recommendation. -/
def parseTextResponse (content : Str) : Analysis :=
  { summary := content.take 200 ++ "...".toList
    issues := []
    overallRating := "unknown".toList
    recommendations := ["Manual review recommended".toList] }

/-- Embedding of the catch-block result of `MCPClient.parseResponse`
(src/mcp/client.js:183-190), returned when parsing the extracted JSON
substring throws: note the empty recommendation list. -/
def parseErrorFallback : Analysis :=
  { summary := "Error parsing response".toList
    issues := []
    overallRating := "unknown".toList
    recommendations := [] }

/-- Embedding of `MCPClient.parseResponse` (src/mcp/client.js:170-191),
parameterised by a `jsonParse` oracle standing for `JSON.parse`
(returning `none` where `JSON.parse` would throw): extract the JSON
substring and parse it; fall back to `parseTextResponse` when no
substring is found, and to the catch-block `parseErrorFallback` when
parsing throws.  The function is total: no path raises. -/
def parseResponse (jsonParse : Str → Option Analysis) (content : Str) :
    Analysis :=
  match extractJson content with
  | some js =>
    match jsonParse js with
    | some a => a
    | none => parseErrorFallback
  | none => parseTextResponse content

/-- Modelled from the spec's words, for comparison with the code: the
claimed degraded result — summary = the first 200 characters of the raw
response (no ellipsis), empty issues, rating unknown, a single
manual-review recommendation. -/
def specDegradedFallback (content : Str) : Analysis :=
  { summary := content.take 200
    issues := []
    overallRating := "unknown".toList
    recommendations := ["Manual review recommended".toList] }

/-- First-match association lookup (JavaScript object/key access for the
literal maps of the source). -/
def assocLookup {α : Type} (m : List (Str × α)) (k : Str) : Option α :=
  match m with
  | [] => none
  | (k', v) :: rest => if k' = k then some v else assocLookup rest k

/-- Splitting a string at every dot, mirroring JavaScript
`filename.split('.')` (never returns an empty list). -/
def splitDots (s : Str) : List Str :=
  match s with
  | [] => [[]]
  | c :: rest =>
    if c = '.' then [] :: splitDots rest
    else
      match splitDots rest with
      | [] => [[c]]
      | h :: t => (c :: h) :: t

/-- The extension-to-language table of `GitHubClient.detectLanguage`
(src/utils/github.js:219-249). -/
def languageMap : List (Str × Str) :=
  [("js".toList, "javascript".toList), ("jsx".toList, "javascript".toList),
   ("ts".toList, "typescript".toList), ("tsx".toList, "typescript".toList),
   ("py".toList, "python".toList), ("java".toList, "java".toList),
   ("go".toList, "go".toList), ("rs".toList, "rust".toList),
   ("cpp".toList, "cpp".toList), ("cc".toList, "cpp".toList),
   ("cxx".toList, "cpp".toList), ("c".toList, "c".toList),
   ("cs".toList, "csharp".toList), ("php".toList, "php".toList),
   ("rb".toList, "ruby".toList), ("swift".toList, "swift".toList),
   ("kt".toList, "kotlin".toList), ("scala".toList, "scala".toList),
   ("sh".toList, "bash".toList), ("sql".toList, "sql".toList),
   ("html".toList, "html".toList), ("css".toList, "css".toList),
   ("scss".toList, "scss".toList), ("sass".toList, "sass".toList),
   ("json".toList, "json".toList), ("yaml".toList, "yaml".toList),
   ("yml".toList, "yaml".toList), ("xml".toList, "xml".toList),
   ("md".toList, "markdown".toList)]

/-- Embedding of `GitHubClient.detectLanguage`
(src/utils/github.js:216-252): the lowercased last dot-separated
component of the filename, looked up in `languageMap`, defaulting to
`text`. -/
def detectLanguage (filename : Str) : Str :=
  let extension := ((splitDots filename).getLastD []).map Char.toLower
  (assocLookup languageMap extension).getD "text".toList

/-- The FixBot language allowlist
(`config.fixBot.supportedLanguages`, src/config/config.js). -/
def supportedLanguages : List Str :=
  ["javascript".toList, "typescript".toList, "python".toList,
   "java".toList, "go".toList, "rust".toList, "cpp".toList,
   "csharp".toList]

/-- Per-file fix outcome as returned by `fixFileIssues` and
`analyzeAndFixFile` (`{ success, fixesApplied }`). -/
structure FixOutcome where
  success : Bool
  fixesApplied : Nat
deriving DecidableEq

/-- Embedding of `FixBot.fixFileIssues` (src/fix-bot/fixBot.js:220-256),
parameterised by the oracles for the current file content
(`getCurrentFileContent`, `none` when unreadable), the generated fix
(`generateFixes`, `none` standing for `null`), and whether the write
succeeds.  Besides the outcome it returns the list of contents passed to
`writeFileContent` (the write trace).  A falsy generated fix — `null` or
the empty string — and a fix identical to the current content both skip
the write and yield a failed outcome. -/
def fixFileIssues (issues : List Issue) (currentContent : Option Str)
    (fixedContent : Option Str) (writeOk : Bool) :
    FixOutcome × List Str :=
  match currentContent with
  | none => (⟨false, 0⟩, [])
  | some content =>
    match fixedContent with
    | none => (⟨false, 0⟩, [])
    | some fc =>
      if fc.isEmpty || fc == content then (⟨false, 0⟩, [])
      else if writeOk then (⟨true, issues.length⟩, [fc])
      else (⟨false, 0⟩, [fc])

/-- The external-call oracles consumed by one `analyzeAndFixFile` run:
the local file read, the analysis call, the fix-generation call (each
`Except.error` standing for a thrown exception) and the write result. -/
structure FixEnv where
  readContent : Option Str
  analyzeCode : Except Str Analysis
  generateFixes : Except Str (Option Str)
  writeOk : Bool

/-- Embedding of `FixBot.analyzeAndFixFile`
(src/fix-bot/fixBot.js:261-325): skip files above 500 changed lines,
unreadable files and unsupported languages; otherwise call the analysis
(recorded in the inspect trace), filter the issues through
`isAutoFixable`, and when fixable issues remain generate a fix and write
it back only if it is non-null, non-empty and differs from the current
content (writes recorded in the write trace).  Thrown errors anywhere
are caught and produce a failed outcome.  Note: the file's `status` is
never consulted. -/
def analyzeAndFixFile (env : FixEnv) (file : PRFile) :
    FixOutcome × List Str × List Str :=
  if file.additions + file.deletions > 500 then (⟨false, 0⟩, [], [])
  else
    match env.readContent with
    | none => (⟨false, 0⟩, [], [])
    | some content =>
      if !(supportedLanguages.contains (detectLanguage file.filename)) then
        (⟨false, 0⟩, [], [])
      else
        match env.analyzeCode with
        | .error _ => (⟨false, 0⟩, [content], [])
        | .ok analysis =>
          if analysis.issues.isEmpty then (⟨false, 0⟩, [content], [])
          else
            let fixableIssues := analysis.issues.filter isAutoFixable
            if fixableIssues.isEmpty then (⟨false, 0⟩, [content], [])
            else
              match env.generateFixes with
              | .error _ => (⟨false, 0⟩, [content], [])
              | .ok none => (⟨false, 0⟩, [content], [])
              | .ok (some fc) =>
                if fc.isEmpty || fc == content then (⟨false, 0⟩, [content], [])
                else if env.writeOk then
                  (⟨true, fixableIssues.length⟩, [content], [fc])
                else (⟨false, 0⟩, [content], [fc])

/-- Tokens of the regular expressions that `GitHubClient.filterFiles`
builds from an exclusion pattern: `dot` matches any single character
(a literal `.` of the pattern, or the leading `.` that the double
replacement manufactures from `**`); `star` matches any run of
non-separator characters (`[^/]*`); `lit c` matches the character `c`
itself. -/
inductive RTok where
  | dot : RTok
  | star : RTok
  | lit (c : Char) : RTok
deriving DecidableEq

/-- Embedding of the pattern compilation in `GitHubClient.filterFiles`
(src/utils/github.js:207):
`new RegExp(pattern.replace(/\*\*/g, '.*').replace(/\*/g, '[^/]*'))`.
The first replacement turns `**` into `.*`; the second then rewrites
the `*` of that `.*` as well, so `**` compiles to `.[^/]*` — one
arbitrary character followed by a run of non-separators — and a lone
`*` compiles to `[^/]*`.  A literal `.` of the pattern stays a regex
dot; all other characters are literals (patterns containing further
regex metacharacters are outside this model). -/
def compilePattern (p : Str) : List RTok :=
  match p with
  | [] => []
  | '*' :: '*' :: rest => RTok.dot :: RTok.star :: compilePattern rest
  | '*' :: rest => RTok.star :: compilePattern rest
  | '.' :: rest => RTok.dot :: compilePattern rest
  | c :: rest => RTok.lit c :: compilePattern rest

/-- Matching a compiled token list against some prefix of `s` (the
anchored-at-start part of JavaScript `RegExp.test`): `star` may consume
any number of leading non-separator characters. -/
def matchHere (toks : List RTok) (s : Str) : Bool :=
  match toks with
  | [] => true
  | RTok.lit c :: ts =>
    match s with
    | [] => false
    | x :: xs => x == c && matchHere ts xs
  | RTok.dot :: ts =>
    match s with
    | [] => false
    | _ :: xs => matchHere ts xs
  | RTok.star :: ts =>
    let run := (s.takeWhile (fun c => c != '/')).length
    (List.range (run + 1)).any (fun k => matchHere ts (s.drop k))

/-- Embedding of `regex.test(file.filename)` for the unanchored
regexes built by `filterFiles`: the pattern may match starting at any
position of the string. -/
def regexTest (toks : List RTok) (s : Str) : Bool :=
  s.tails.any (fun t => matchHere toks t)

/-- Embedding of `GitHubClient.filterFiles`
(src/utils/github.js:202-211): keep the files whose name no exclusion
pattern matches, in their original order. -/
def filterFiles (patterns : List Str) (files : List PRFile) :
    List PRFile :=
  files.filter (fun file =>
    !(patterns.any (fun pattern =>
      regexTest (compilePattern pattern) file.filename)))

/-- The exclusion patterns of `config.reviewBot.excludePatterns`
(src/config/config.js). -/
def excludePatterns : List Str :=
  ["node_modules/**".toList, "dist/**".toList, "build/**".toList,
   "*.min.js".toList, "*.min.css".toList, "package-lock.json".toList,
   "yarn.lock".toList]

/-- Value of `config.reviewBot.maxFilesPerReview` (src/config/config.js). -/
def maxFilesPerReview : Nat := 50

/-- Value of `config.fixBot.maxChangesPerRun` (src/config/config.js). -/
def maxChangesPerRun : Nat := 10

/-- Artifact selection as performed by `ReviewBot.reviewPullRequest`
(src/review-bot/reviewBot.js:43-53): filter through the exclusion
patterns, then keep the first `n` survivors. -/
def selectFiles (patterns : List Str) (files : List PRFile) (n : Nat) :
    List PRFile :=
  (filterFiles patterns files).take n

/-- Tokens of the spec's glob language: `star` = any run of
non-separator characters, `dstar` = any run of characters including
separators, `lit c` = the character itself. -/
inductive GTok where
  | star : GTok
  | dstar : GTok
  | lit (c : Char) : GTok
deriving DecidableEq

/-- Modelled from the spec's words: glob-pattern reading where `**` is
one token matching any run of characters and `*` matches a run of
non-separators; every other character (including `.`) is literal. -/
def globCompile (p : Str) : List GTok :=
  match p with
  | [] => []
  | '*' :: '*' :: rest => GTok.dstar :: globCompile rest
  | '*' :: rest => GTok.star :: globCompile rest
  | c :: rest => GTok.lit c :: globCompile rest

/-- Modelled from the spec's words: full-string glob matching under the
spec's semantics for `*` and `**`. -/
def globMatch (toks : List GTok) (s : Str) : Bool :=
  match toks with
  | [] => s.isEmpty
  | GTok.lit c :: ts =>
    match s with
    | [] => false
    | x :: xs => x == c && globMatch ts xs
  | GTok.star :: ts =>
    let run := (s.takeWhile (fun c => c != '/')).length
    (List.range (run + 1)).any (fun k => globMatch ts (s.drop k))
  | GTok.dstar :: ts =>
    (List.range (s.length + 1)).any (fun k => globMatch ts (s.drop k))

/-- Emptiness of a JavaScript-trimmed string: `!content.trim()` is truthy
exactly when every character is whitespace. -/
def trimEmpty (s : Str) : Bool := s.all (fun c => c.isWhitespace)

/-- Embedding of `ReviewBot.analyzeFile`
(src/review-bot/reviewBot.js:80-128), parameterised by the analysis
oracle (`Except.error` standing for a thrown `analyzeCode`): skip (and
do not inspect) files above 1000 changed lines; take the patch as
content for added/modified files; return `null` for removed files (and
any other status, whose content stays empty) and for
whitespace-only/missing patches; otherwise invoke the analysis (recorded
in the inspect trace), catching its errors as `null`. -/
def reviewAnalyzeFile (ar : Except Str Analysis) (file : PRFile) :
    Option Review × List Str :=
  if file.additions + file.deletions > 1000 then (none, [])
  else if file.status == "added".toList
      || file.status == "modified".toList then
    let content := file.patch.getD []
    if trimEmpty content then (none, [])
    else
      match ar with
      | Except.error _ => (none, [content])
      | Except.ok analysis => (some ⟨file, analysis⟩, [content])
  else (none, [])

/-- A reified posting side effect of the review pipeline: a plain
comment with its built body, a per-issue comment (body abstracted to the
issue and filename it names), or a PR review with its event. -/
inductive Post where
  | comment (body : Str) : Post
  | issueNote (issue : Issue) (filename : Str) : Post
  | review (event : Str) : Post
deriving DecidableEq

/-- The fixed prefix of `ReviewBot.postErrorComment`'s body
(src/review-bot/reviewBot.js:269-272). -/
def errorCommentPre : Str :=
  "## ❌ ReviewBot Error\n\nAn error occurred during the analysis:\n\n```\n".toList

/-- The fixed suffix of `ReviewBot.postErrorComment`'s body. -/
def errorCommentSuf : Str :=
  "\n```\n\nPlease check the action logs for more details.".toList

/-- The body posted by `ReviewBot.postErrorComment(errorMessage)`:
fixed prose around the exception message. -/
def errorCommentBody (m : Str) : Str :=
  errorCommentPre ++ m ++ errorCommentSuf

/-- The body posted for an empty filtered file list
(`postSummaryComment('No reviewable files found in this PR.')`,
src/review-bot/reviewBot.js:48 and 284-292). -/
def noFilesBody : Str :=
  "## 🤖 ReviewBot\n\nNo reviewable files found in this PR.".toList

/-- The message of the exception thrown on a failed health check
(src/review-bot/reviewBot.js:34). -/
def healthFailMsg : Str := "MCP connection health check failed".toList

/-- The external-call oracles of one `reviewPullRequest` run.  Only the
stages that can actually throw to the top level carry an `Except`
(`healthCheck` swallows its own errors and returns a boolean;
`postSummaryComment`, `analyzeFile`, `generateSummary` and
`postFileComments` each catch their own exceptions, modelled by the
two posting-success flags).  The pull-request payload itself only feeds
prompt text, so it is reduced to `Unit`. -/
structure ReviewEnv where
  healthOk : Bool
  getPullRequest : Except Str Unit
  getPullRequestFiles : Except Str (List PRFile)
  analysisFor : PRFile → Except Str Analysis
  createCommentOk : Bool
  createReviewOk : Bool

/-- The `try` block of `ReviewBot.reviewPullRequest`
(src/review-bot/reviewBot.js:25-70): health check, PR fetch, file fetch
(each able to throw), filtering, the no-files early return, per-file
analysis, one posted review with the selected event, and one posted
comment per discovered issue. -/
def reviewPullRequestTry (env : ReviewEnv) : Except Str (List Post) :=
  if !env.healthOk then Except.error healthFailMsg
  else
    match env.getPullRequest with
    | Except.error m => Except.error m
    | Except.ok _ =>
      match env.getPullRequestFiles with
      | Except.error m => Except.error m
      | Except.ok files =>
        let filteredFiles := filterFiles excludePatterns files
        if filteredFiles.isEmpty then
          Except.ok
            (if env.createCommentOk then [Post.comment noFilesBody] else [])
        else
          let filesToReview := filteredFiles.take maxFilesPerReview
          let reviews := filesToReview.filterMap
            (fun file => (reviewAnalyzeFile (env.analysisFor file) file).1)
          let reviewPosts :=
            if env.createReviewOk then [Post.review (reviewEvent reviews)]
            else []
          let issuePosts :=
            if env.createCommentOk then
              reviews.flatMap (fun r =>
                r.analysis.issues.map
                  (fun i => Post.issueNote i r.file.filename))
            else []
          Except.ok (reviewPosts ++ issuePosts)

/-- Embedding of `ReviewBot.reviewPullRequest` with its top-level
`catch` (src/review-bot/reviewBot.js:71-75): any exception is converted
into one posted error comment carrying the message (none when that post
itself fails), after which the method returns normally. -/
def reviewPullRequest (env : ReviewEnv) : List Post :=
  match reviewPullRequestTry env with
  | Except.ok posts => posts
  | Except.error m =>
    if env.createCommentOk then [Post.comment (errorCommentBody m)]
    else []

/-- Embedding of `runReviewBot` (src/index.js): it rethrows only what
`reviewPullRequest` throws — which is nothing. -/
def runReviewBot (env : ReviewEnv) : Except Str (List Post) :=
  Except.ok (reviewPullRequest env)

/-- The process exit code of the review entry point
(src/review-bot/index.js: `process.exit(0)` after a normal return,
`process.exit(1)` only on a thrown error). -/
def reviewProcessExitCode (env : ReviewEnv) : Nat :=
  match runReviewBot env with
  | Except.ok _ => 0
  | Except.error _ => 1

/-- One step of `FixBot.groupIssuesByFile`'s reduce
(src/fix-bot/fixBot.js:207-214): push the issue onto the existing group
for its key, or append a fresh single-issue group (JavaScript objects
iterate string keys in insertion order). -/
def addToGroup (groups : List (Str × List Issue)) (k : Str) (i : Issue) :
    List (Str × List Issue) :=
  match groups with
  | [] => [(k, [i])]
  | (k', l) :: rest =>
    if k' = k then (k', l ++ [i]) :: rest
    else (k', l) :: addToGroup rest k i

/-- Embedding of `FixBot.groupIssuesByFile`
(src/fix-bot/fixBot.js:206-215): fold the issues into an insertion-order
association list keyed by `issue.filename`. -/
def groupIssuesByFile (issues : List Issue) : List (Str × List Issue) :=
  issues.foldl (fun groups issue => addToGroup groups issue.filename issue) []

/-- Embedding of `FixBot.extractIssuesFromComments`
(src/fix-bot/fixBot.js:182-201): the source is an admitted stub — it
ignores the run's analysis results entirely and always returns this
single hard-coded mock issue. -/
def extractIssuesFromComments : List Issue :=
  [⟨"example.js".toList, "style".toList, "low".toList, some 10,
    "Missing semicolon".toList,
    "Add semicolon at end of statement".toList⟩]

/-- The guard message of `FixBot.applySpecificFixes`
(src/fix-bot/fixBot.js:115). -/
def noIssuesMsg : Str :=
  "No specific issues found to fix. Please ensure ReviewBot has analyzed the PR first.".toList

/-- The body of `FixBot.postFixComment(message)`
(src/fix-bot/fixBot.js:381-389). -/
def fixBotCommentBody (message : Str) : Str :=
  "## 🔧 FixBot\n\n".toList ++ message

/-- The body of `FixBot.postFixSummary`
(src/fix-bot/fixBot.js:357-369). -/
def fixSummaryBody (fixedFiles totalFixes totalFiles : Nat) : Str :=
  "## 🔧 FixBot Results\n\n✅ **Automated fixes applied successfully!**\n\n### 📊 Summary\n- **Files processed:** ".toList
  ++ ((toString totalFiles).toList
    ++ ("\n- **Files modified:** ".toList
      ++ ((toString fixedFiles).toList
        ++ ("\n- **Total fixes applied:** ".toList
          ++ ((toString totalFixes).toList
            ++ "\n\n### 🎯 Fix Types Applied\n- Code style improvements\n- Performance optimizations\n- Refactoring suggestions\n\n---\n🤖 *Changes have been committed automatically. Please review the modifications before merging.*".toList)))))

/-- Embedding of `FixBot.applySpecificFixes`
(src/fix-bot/fixBot.js:107-143), parameterised by per-file oracles for
the content read and the generated fix: take the issue list from
`extractIssuesFromComments`; when it is empty, post the no-issues guard
comment and stop; otherwise group the issues by file, fix each group via
`fixFileIssues`, and post one summary comment.  Returns the posts and
the concatenated write traces. -/
def applySpecificFixes (readContent : Str → Option Str)
    (genFix : Str → Option Str) (writeOk : Bool) :
    List Post × List Str :=
  let issues := extractIssuesFromComments
  if issues.isEmpty then
    ([Post.comment (fixBotCommentBody noIssuesMsg)], [])
  else
    let issuesByFile := groupIssuesByFile issues
    let results := issuesByFile.map (fun g =>
      fixFileIssues g.2 (readContent g.1) (genFix g.1) writeOk)
    let fixedFiles := (results.filter (fun r => r.1.success)).length
    let totalFixes := (results.map (fun r => r.1.fixesApplied)).foldl (· + ·) 0
    ([Post.comment (fixSummaryBody fixedFiles totalFixes issuesByFile.length)],
     results.flatMap (fun r => r.2))

/-- Characterization: `includesStr text pat` holds exactly when `pat` is a contiguous
infix of `text`. -/
theorem includesStr_iff (text pat : Str) :
    includesStr text pat = true ↔ pat <:+: text := by
  induction text with
  | nil => simp [includesStr, List.infix_nil, List.isEmpty_iff]
  | cons c rest ih =>
    simp [includesStr, List.isPrefixOf_iff_prefix, ih, List.infix_cons_iff]

/-- Any lowercased comment containing the mention token `@fixbot` also
contains the keyword `fix`, because `fix` is a substring of `@fixbot`
itself. -/
theorem mention_implies_fix {n : Str}
    (h : includesStr n "@fixbot".toList = true) :
    includesStr n "fix".toList = true := by
  rw [includesStr_iff] at h ⊢
  exact List.IsInfix.trans (by decide) h

/-- C1 (counterexample): the spec's example `parse("@fixbot")` does
not yield the blanket/"suggested" fallback: since the mention token
`@fixbot` itself contains the keyword `fix` and `includes` is a substring
test, the parser lands in the apply/fix branch and returns the
specific/"targeted" request. -/
theorem c1_parse_bare_mention_counterexample :
    parseFixRequest "@fixbot".toList
        = FixRequest.fix "specific".toList "targeted".toList ∧
    parseFixRequest "@fixbot".toList
        ≠ FixRequest.fix "general".toList "suggested".toList := by
  decide

/-- C1 (amended): after lowercasing, a comment without the mention
token parses to no-fix; a comment with the mention token parses to
general/"all" when it contains `all` and to specific/"targeted"
otherwise (the mention itself supplies the `fix` keyword, so the
apply/fix branch is always taken); the general/"suggested" fallback of
the source is unreachable for every comment. -/
theorem c1_parseFixRequest_classification (cb : Str) :
    (includesStr (cb.map Char.toLower) "@fixbot".toList = false →
      parseFixRequest cb = FixRequest.noFix) ∧
    (includesStr (cb.map Char.toLower) "@fixbot".toList = true →
      includesStr (cb.map Char.toLower) "all".toList = true →
      parseFixRequest cb = FixRequest.fix "general".toList "all".toList) ∧
    (includesStr (cb.map Char.toLower) "@fixbot".toList = true →
      includesStr (cb.map Char.toLower) "all".toList = false →
      parseFixRequest cb
        = FixRequest.fix "specific".toList "targeted".toList) ∧
    parseFixRequest cb ≠ FixRequest.fix "general".toList "suggested".toList := by
  refine ⟨fun hm => ?_, fun hm hall => ?_, fun hm hall => ?_, ?_⟩
  · simp only [parseFixRequest]
    rw [hm]
    simp
  · simp only [parseFixRequest]
    rw [hm, mention_implies_fix hm, hall]
    simp
  · simp only [parseFixRequest]
    rw [hm, mention_implies_fix hm, hall]
    simp
  · by_cases hm : includesStr (cb.map Char.toLower) "@fixbot".toList = true
    · have hf := mention_implies_fix hm
      by_cases hall : includesStr (cb.map Char.toLower) "all".toList = true
      · simp only [parseFixRequest]
        rw [hm, hf, hall]
        simp
      · simp only [Bool.not_eq_true] at hall
        simp only [parseFixRequest]
        rw [hm, hf, hall]
        simp
    · simp only [Bool.not_eq_true] at hm
      simp only [parseFixRequest]
      rw [hm]
      simp

/-- C1 (witness): the classification theorem applied to the concrete
comment `please @fixbot apply all`, which parses to general/"all". -/
theorem c1_classification_witness :
    parseFixRequest "please @fixbot apply all".toList
      = FixRequest.fix "general".toList "all".toList :=
  (c1_parseFixRequest_classification "please @fixbot apply all".toList).2.1
    (by decide) (by decide)

/-- C2: an issue is auto-fixable iff its type is in
{style, performance, refactor} and its severity is not high; in
particular every high-severity issue and every issue with a type outside
that set is not auto-fixable. -/
theorem c2_isAutoFixable_policy (i : Issue) :
    (isAutoFixable i = true ↔
      (i.type ∈ fixableTypes ∧ i.severity ≠ "high".toList)) ∧
    (i.severity = "high".toList → isAutoFixable i = false) ∧
    (i.type ∉ fixableTypes → isAutoFixable i = false) := by
  refine ⟨?_, fun hs => ?_, fun ht => ?_⟩
  · simp [isAutoFixable, List.contains, List.elem_iff, bne_iff_ne]
  · simp [isAutoFixable, hs]
  · simp [isAutoFixable, List.contains, List.elem_iff, ht]

/-- C2 (witness): the policy applied to a concrete high-severity
style issue, which is rejected by the classifier. -/
theorem c2_policy_witness :
    isAutoFixable ⟨"a.js".toList, "style".toList, "high".toList, none, [], []⟩
      = false :=
  (c2_isAutoFixable_policy
    ⟨"a.js".toList, "style".toList, "high".toList, none, [], []⟩).2.1 rfl

/-- The per-file high-severity count never exceeds the per-file issue
count, so the global aggregates are ordered the same way. -/
theorem highSeverityIssues_le_totalIssues (reviews : List Review) :
    highSeverityIssues reviews ≤ totalIssues reviews := by
  suffices h : ∀ (l : List Review) (a b : Nat), a ≤ b →
      l.foldl (fun sum review =>
        sum + (review.analysis.issues.filter
          (fun issue => issue.severity == "high".toList)).length) a ≤
      l.foldl (fun sum review => sum + review.analysis.issues.length) b by
    exact h reviews 0 0 le_rfl
  intro l
  induction l with
  | nil => intro a b hab; simpa using hab
  | cons r rest ih =>
    intro a b hab
    exact ih _ _ (Nat.add_le_add hab (List.length_filter_le _ _))

/-- C3: verdict selection in priority order: any high-severity issue
forces the REQUEST_CHANGES review event (regardless of the total); with
no high-severity issues, more than five issues give the COMMENT event
labelled needs-improvement, one to five issues give approved with
suggestions, and zero issues give approved. -/
theorem c3_verdict_selection (reviews : List Review) :
    (highSeverityIssues reviews > 0 →
      reviewEvent reviews = "REQUEST_CHANGES".toList ∧
      overallAssessment reviews
        = "❌ **CHANGES REQUESTED** - High severity issues found".toList) ∧
    (highSeverityIssues reviews = 0 → totalIssues reviews > 5 →
      reviewEvent reviews = "COMMENT".toList ∧
      overallAssessment reviews
        = "⚠️ **NEEDS IMPROVEMENT** - Multiple issues found".toList) ∧
    (highSeverityIssues reviews = 0 → 0 < totalIssues reviews →
      totalIssues reviews ≤ 5 →
      reviewEvent reviews = "COMMENT".toList ∧
      overallAssessment reviews
        = "📝 **APPROVED WITH SUGGESTIONS** - Minor issues found".toList) ∧
    (totalIssues reviews = 0 →
      reviewEvent reviews = "COMMENT".toList ∧
      overallAssessment reviews
        = "✅ **APPROVED** - Code looks good!".toList) := by
  refine ⟨fun hh => ?_, fun hh ht => ?_, fun hh ht ht5 => ?_, fun ht => ?_⟩
  · simp [reviewEvent, overallAssessment, hh]
  · simp [reviewEvent, overallAssessment, hh, ht]
  · have h5 : ¬ totalIssues reviews > 5 := by omega
    simp [reviewEvent, overallAssessment, hh, ht, h5]
  · have hh : highSeverityIssues reviews = 0 :=
      Nat.le_zero.mp (ht ▸ highSeverityIssues_le_totalIssues reviews)
    simp [reviewEvent, overallAssessment, hh, ht]

/-- C3 (witness): a single high-severity issue with `totalIssues = 1
≤ 5` yields the REQUEST_CHANGES event. -/
theorem c3_verdict_witness :
    reviewEvent
        [⟨⟨"a.js".toList, "modified".toList, 1, 0, none⟩,
          ⟨[], [⟨"a.js".toList, "bug".toList, "high".toList, none, [], []⟩],
           "fair".toList, []⟩⟩]
      = "REQUEST_CHANGES".toList :=
  (c3_verdict_selection _).1 (by decide) |>.1

/-- C4 (counterexample): on a response whose JSON substring fails to
parse, `parseResponse` returns the catch-block object (summary "Error
parsing response", empty recommendations), not the claimed degraded
result; and on a JSON-free response the summary carries an appended
ellipsis, so it is not the bare 200-character prefix the claim states. -/
theorem c4_fallback_counterexample :
    parseResponse (fun _ => none) [lbrace, 'x', rbrace] = parseErrorFallback ∧
    parseResponse (fun _ => none) [lbrace, 'x', rbrace]
      ≠ specDegradedFallback [lbrace, 'x', rbrace] ∧
    parseResponse (fun _ => none) "hello".toList
      ≠ specDegradedFallback "hello".toList := by
  decide

/-- C4 (amended): when no JSON object substring is found,
`parseResponse` returns the degraded `parseTextResponse` result — first
200 characters of the raw response with "..." appended, empty issues,
rating unknown, a single manual-review recommendation; when the
substring is found but parsing it throws, it returns the catch-block
fallback (summary "Error parsing response", empty issues, rating
unknown, empty recommendations).  Both paths are total, never raising. -/
theorem c4_degraded_fallback (jsonParse : Str → Option Analysis)
    (content : Str) :
    (extractJson content = none →
      parseResponse jsonParse content = parseTextResponse content ∧
      (parseResponse jsonParse content).summary
        = content.take 200 ++ "...".toList ∧
      (parseResponse jsonParse content).issues = [] ∧
      (parseResponse jsonParse content).overallRating = "unknown".toList ∧
      (parseResponse jsonParse content).recommendations
        = ["Manual review recommended".toList]) ∧
    (∀ js, extractJson content = some js → jsonParse js = none →
      parseResponse jsonParse content = parseErrorFallback) := by
  constructor
  · intro h
    simp [parseResponse, h, parseTextResponse]
  · intro js h hp
    simp [parseResponse, h, hp]

/-- C4 (witness): the degraded-path theorem applied to the concrete
unparseable prose response "hello". -/
theorem c4_degraded_witness :
    parseResponse (fun _ => none) "hello".toList
      = parseTextResponse "hello".toList :=
  ((c4_degraded_fallback (fun _ => none) "hello".toList).1 (by decide)).1

/-- C5: when the generated fix is `null` or identical to the current
content, neither `fixFileIssues` nor `analyzeAndFixFile` performs a
write, and both record a failed outcome with zero fixes applied; and a
write is attempted only when the generated fix is non-null and differs
from the current content. -/
theorem c5_no_write_on_null_or_identical
    (issues : List Issue) (content : Str) (fc : Option Str) (w : Bool)
    (env : FixEnv) (file : PRFile) :
    ((fc = none ∨ fc = some content) →
      fixFileIssues issues (some content) fc w = (⟨false, 0⟩, [])) ∧
    (∀ out ws, fixFileIssues issues (some content) fc w = (out, ws) →
      ws ≠ [] → ∃ c, fc = some c ∧ c ≠ content) ∧
    (∀ content', env.readContent = some content' →
      (env.generateFixes = Except.ok none ∨
       env.generateFixes = Except.ok (some content')) →
      (analyzeAndFixFile env file).1 = ⟨false, 0⟩ ∧
      (analyzeAndFixFile env file).2.2 = []) ∧
    ((analyzeAndFixFile env file).2.2 ≠ [] →
      ∃ c content', env.readContent = some content' ∧
        env.generateFixes = Except.ok (some c) ∧ c ≠ content') := by
  refine ⟨fun h => ?_, fun out ws hws hne => ?_, fun content' hr hg => ?_,
    fun hw => ?_⟩
  · rcases h with h | h <;> simp [fixFileIssues, h]
  · rcases fc with _ | c
    · simp [fixFileIssues] at hws
      exact absurd hws.2 hne
    · refine ⟨c, rfl, ?_⟩
      intro heq
      subst heq
      simp [fixFileIssues] at hws
      exact hne hws.2
  · unfold analyzeAndFixFile
    rw [hr]
    rcases hg with hg | hg <;> rw [hg] <;> (repeat' split) <;> simp_all
  · unfold analyzeAndFixFile at hw
    split at hw
    · simp at hw
    · split at hw
      · simp at hw
      · split at hw
        · simp at hw
        · split at hw
          · simp at hw
          · split at hw
            · simp at hw
            · split at hw
              · simp at hw
              · simp at hw
              · split at hw
                · simp at hw
                · rename_i hcond
                  simp only [Bool.or_eq_true, not_or,
                    Bool.not_eq_true] at hcond
                  exact ⟨_, _, by assumption, by assumption,
                    by simpa using hcond.2⟩

/-- C5 (witness): a generated fix identical to the current content
produces a failed outcome and no write, at concrete inputs. -/
theorem c5_no_write_witness :
    fixFileIssues [] (some "a".toList) (some "a".toList) true
      = (⟨false, 0⟩, []) :=
  (c5_no_write_on_null_or_identical [] "a".toList (some "a".toList) true
      ⟨none, Except.ok ⟨[], [], [], []⟩, Except.ok none, true⟩
      ⟨[], [], 0, 0, none⟩).1 (Or.inr rfl)

/-- C6 (counterexample): under the spec's glob semantics the pattern
`a**b` matches the path `a/x/b`, yet the code's compiled regex does not
(`**` is compiled to `.[^/]*`, which cannot span the two separators), so
filtering and selection both return the artifact the spec says must be
excluded. -/
theorem c6_selection_counterexample :
    globMatch (globCompile "a**b".toList) "a/x/b".toList = true ∧
    filterFiles ["a**b".toList]
        [⟨"a/x/b".toList, "modified".toList, 1, 0, none⟩]
      = [⟨"a/x/b".toList, "modified".toList, 1, 0, none⟩] ∧
    selectFiles ["a**b".toList]
        [⟨"a/x/b".toList, "modified".toList, 1, 0, none⟩] maxFilesPerReview
      = [⟨"a/x/b".toList, "modified".toList, 1, 0, none⟩] := by
  decide

/-- C6 (amended): selection never returns an artifact whose path is
matched — unanchored, under the code's compiled-regex semantics, where
`**` compiles to `.[^/]*` and `*` to `[^/]*` — by any exclusion
pattern; it preserves the relative input order of the survivors
(sublists of the input); and it truncates to at most `n`, keeping a
prefix of the survivor list (the first `n` survivors). -/
theorem c6_selection_properties (patterns : List Str)
    (files : List PRFile) (n : Nat) :
    (∀ f ∈ selectFiles patterns files n, ∀ p ∈ patterns,
      regexTest (compilePattern p) f.filename = false) ∧
    List.Sublist (filterFiles patterns files) files ∧
    List.Sublist (selectFiles patterns files n) files ∧
    (selectFiles patterns files n).length ≤ n ∧
    (selectFiles patterns files n) <+: filterFiles patterns files := by
  refine ⟨fun f hf p hp => ?_, ?_, ?_, ?_, ?_⟩
  · have hf' : f ∈ filterFiles patterns files :=
      List.mem_of_mem_take hf
    have hpred := List.of_mem_filter hf'
    simp only [Bool.not_eq_true', List.any_eq_false] at hpred
    exact Bool.not_eq_true _ ▸ hpred p hp
  · exact List.filter_sublist files
  · exact (List.take_sublist n _).trans (List.filter_sublist files)
  · exact List.length_take_le n _
  · exact List.take_prefix n _

/-- C6 (witness): the selection guarantee at a concrete input — the
surviving artifact `src/app.js` is matched by none of the configured
exclusion patterns. -/
theorem c6_selection_witness :
    regexTest (compilePattern "*.min.js".toList) "src/app.js".toList
      = false :=
  (c6_selection_properties excludePatterns
      [⟨"src/app.js".toList, "modified".toList, 1, 0, none⟩]
      maxFilesPerReview).1
    ⟨"src/app.js".toList, "modified".toList, 1, 0, none⟩ (by decide)
    "*.min.js".toList (by decide)

/-- C7 (counterexample): the fix pipeline never consults the
artifact status — a removed artifact whose content is still readable is
inspected and even fixed by `analyzeAndFixFile`. -/
theorem c7_removed_fix_counterexample :
    let file : PRFile :=
      ⟨"example.js".toList, "removed".toList, 1, 0, some "x".toList⟩
    let env : FixEnv :=
      ⟨some "var x = 1".toList,
       Except.ok ⟨[], [⟨"example.js".toList, "style".toList,
         "low".toList, none, [], []⟩], "good".toList, []⟩,
       Except.ok (some "let x = 1".toList), true⟩
    file.status = "removed".toList ∧
    (analyzeAndFixFile env file).2.1 ≠ [] ∧
    (analyzeAndFixFile env file).2.2 ≠ [] ∧
    (analyzeAndFixFile env file).1.success = true := by
  decide

/-- C7 (amended): in the review pipeline an artifact with status
removed is never inspected; an artifact above 1000 combined changed
lines, or with whitespace-only or missing patch content, is skipped
without invoking the analysis (returned as a skip, not an error). The
fix pipeline performs no status check (see the counterexample) — it
skips only on size, unreadable content or unsupported language. -/
theorem c7_review_skip_rules (ar : Except Str Analysis) (file : PRFile) :
    (file.status = "removed".toList →
      reviewAnalyzeFile ar file = (none, [])) ∧
    (file.additions + file.deletions > 1000 →
      reviewAnalyzeFile ar file = (none, [])) ∧
    ((file.status = "added".toList ∨ file.status = "modified".toList) →
      trimEmpty (file.patch.getD []) = true →
      reviewAnalyzeFile ar file = (none, [])) := by
  refine ⟨fun hs => ?_, fun hn => ?_, fun hs ht => ?_⟩
  · simp [reviewAnalyzeFile, hs]
  · simp [reviewAnalyzeFile, hn]
  · rcases hs with hs | hs <;> simp [reviewAnalyzeFile, hs, ht]

/-- C7 (witness): the skip rules at a concrete removed artifact,
which the review pipeline neither analyzes nor records. -/
theorem c7_review_skip_witness :
    reviewAnalyzeFile (Except.ok ⟨[], [], [], []⟩)
      ⟨"a.js".toList, "removed".toList, 1, 0, some "x".toList⟩
      = (none, []) :=
  (c7_review_skip_rules (Except.ok ⟨[], [], [], []⟩)
    ⟨"a.js".toList, "removed".toList, 1, 0, some "x".toList⟩).1 rfl

/-- C8 (counterexample): on a run whose health check fails, the
exception is caught and turned into one error comment, but the run then
returns normally and the process exits 0 — not with the non-zero outcome
the claim states. -/
theorem c8_exit_counterexample :
    let env : ReviewEnv :=
      ⟨false, Except.ok (), Except.ok [],
       fun _ => Except.ok ⟨[], [], [], []⟩, true, true⟩
    reviewPullRequestTry env = Except.error healthFailMsg ∧
    reviewPullRequest env = [Post.comment (errorCommentBody healthFailMsg)] ∧
    reviewProcessExitCode env = 0 :=
  ⟨rfl, rfl, rfl⟩

/-- C8 (amended): every exception thrown at any stage of the review
run is caught at the top level and converted into exactly one posted
error comment containing the exception message (none when the posting
call itself fails); the run does not re-raise and returns a normal
(zero) outcome to its caller — the process exit code is 0, not
non-zero. -/
theorem c8_error_boundary (env : ReviewEnv) (m : Str)
    (h : reviewPullRequestTry env = Except.error m) :
    reviewPullRequest env
      = (if env.createCommentOk then [Post.comment (errorCommentBody m)]
         else []) ∧
    m <:+: errorCommentBody m ∧
    runReviewBot env = Except.ok (reviewPullRequest env) ∧
    reviewProcessExitCode env = 0 := by
  refine ⟨?_, ⟨errorCommentPre, errorCommentSuf, rfl⟩, rfl, rfl⟩
  simp [reviewPullRequest, h]

/-- C8 (witness): the error boundary applied to a concrete run whose
pull-request fetch throws `boom`: the process still exits 0. -/
theorem c8_error_boundary_witness :
    reviewProcessExitCode
      ⟨true, Except.error "boom".toList, Except.ok [],
       fun _ => Except.ok ⟨[], [], [], []⟩, true, true⟩ = 0 :=
  (c8_error_boundary
    ⟨true, Except.error "boom".toList, Except.ok [],
     fun _ => Except.ok ⟨[], [], [], []⟩, true, true⟩
    "boom".toList rfl).2.2.2

/-- Looking up the key just added to a group map finds the pushed issue
at the end of its (possibly fresh) group. -/
theorem assocLookup_addToGroup_same (g : List (Str × List Issue))
    (k : Str) (i : Issue) :
    assocLookup (addToGroup g k i) k
      = some ((assocLookup g k).getD [] ++ [i]) := by
  induction g with
  | nil => simp [addToGroup, assocLookup]
  | cons p rest ih =>
    obtain ⟨k', l⟩ := p
    by_cases h : k' = k
    · subst h
      simp [addToGroup, assocLookup]
    · simp [addToGroup, assocLookup, h, ih]

/-- Adding to one group leaves every other key's lookup unchanged. -/
theorem assocLookup_addToGroup_other (g : List (Str × List Issue))
    (k : Str) (i : Issue) (k' : Str) (h : k' ≠ k) :
    assocLookup (addToGroup g k i) k' = assocLookup g k' := by
  induction g with
  | nil =>
    have h' : ¬ (k = k') := fun hh => h hh.symm
    simp [addToGroup, assocLookup, h']
  | cons p rest ih =>
    obtain ⟨k'', l⟩ := p
    by_cases h2 : k'' = k
    · subst h2
      have : ¬ (k'' = k') := fun hh => h hh.symm
      simp [addToGroup, assocLookup, this]
    · by_cases h3 : k'' = k'
      · subst h3
        simp [addToGroup, assocLookup, h2]
      · simp [addToGroup, assocLookup, h2, h3, ih]

/-- Characterization of the grouping fold: relative to any accumulator,
each key's group collects, in input order, exactly the issues filed
under that key. -/
theorem assocLookup_groupFold (issues : List Issue)
    (acc : List (Str × List Issue)) (k : Str) :
    assocLookup
        (issues.foldl
          (fun groups issue => addToGroup groups issue.filename issue) acc) k
      = match assocLookup acc k with
        | some l =>
          some (l ++ issues.filter (fun i => i.filename == k))
        | none =>
          if (issues.filter (fun i => i.filename == k)).isEmpty then none
          else some (issues.filter (fun i => i.filename == k)) := by
  induction issues generalizing acc with
  | nil =>
    cases h : assocLookup acc k <;> simp [h]
  | cons i rest ih =>
    by_cases hk : i.filename = k
    · subst hk
      rw [List.foldl_cons, ih, assocLookup_addToGroup_same]
      cases h : assocLookup acc i.filename <;> simp [h]
    · rw [List.foldl_cons, ih,
        assocLookup_addToGroup_other _ _ _ _ (fun hh => hk hh.symm)]
      cases h : assocLookup acc k <;>
        simp [h, List.filter_cons, hk]

/-- A key absent from the lookup is absent from the key list. -/
theorem assocLookup_eq_none_iff (g : List (Str × List Issue)) (k : Str) :
    assocLookup g k = none ↔ k ∉ g.map Prod.fst := by
  induction g with
  | nil => simp [assocLookup]
  | cons p rest ih =>
    obtain ⟨k', v⟩ := p
    by_cases h : k' = k
    · subst h
      simp [assocLookup]
    · have h' : ¬ (k = k') := fun hh => h hh.symm
      simp [assocLookup, h, ih, h']

/-- A successful lookup is a member of the association list. -/
theorem mem_of_assocLookup (g : List (Str × List Issue)) (k : Str)
    (l : List Issue) (h : assocLookup g k = some l) : (k, l) ∈ g := by
  induction g with
  | nil => simp [assocLookup] at h
  | cons p rest ih =>
    obtain ⟨k', v⟩ := p
    by_cases h2 : k' = k
    · subst h2
      simp [assocLookup] at h
      simp [h]
    · simp [assocLookup, h2] at h
      exact List.mem_cons_of_mem _ (ih h)

/-- With distinct keys, membership determines the lookup. -/
theorem assocLookup_of_mem (g : List (Str × List Issue)) (k : Str)
    (l : List Issue) (hnd : (g.map Prod.fst).Nodup) (h : (k, l) ∈ g) :
    assocLookup g k = some l := by
  induction g with
  | nil => simp at h
  | cons p rest ih =>
    obtain ⟨k', v⟩ := p
    simp only [List.map_cons, List.nodup_cons] at hnd
    rcases List.mem_cons.mp h with h | h
    · rw [show k' = k from (Prod.mk.injEq .. ▸ h.symm).1,
        show v = l from (Prod.mk.injEq .. ▸ h.symm).2]
      simp [assocLookup]
    · have hkne : ¬ (k' = k) := by
        intro hh
        subst hh
        exact hnd.1 (List.mem_map_of_mem Prod.fst h)
      simp [assocLookup, hkne, ih hnd.2 h]

/-- Adding to a group map creates a key only when it was absent, and
appends it at the end. -/
theorem keys_addToGroup (g : List (Str × List Issue)) (k : Str)
    (i : Issue) :
    (addToGroup g k i).map Prod.fst
      = if assocLookup g k = none then g.map Prod.fst ++ [k]
        else g.map Prod.fst := by
  induction g with
  | nil => simp [addToGroup, assocLookup]
  | cons p rest ih =>
    obtain ⟨k', l⟩ := p
    by_cases h2 : k' = k
    · subst h2
      simp [addToGroup, assocLookup]
    · simp only [addToGroup, if_neg h2, List.map_cons, assocLookup, ih]
      by_cases h3 : assocLookup rest k = none <;> simp [h2, h3]

/-- Adding to a group map preserves distinctness of its keys. -/
theorem nodupKeys_addToGroup (g : List (Str × List Issue)) (k : Str)
    (i : Issue) (h : (g.map Prod.fst).Nodup) :
    ((addToGroup g k i).map Prod.fst).Nodup := by
  rw [keys_addToGroup]
  by_cases h3 : assocLookup g k = none
  · rw [if_pos h3, List.nodup_append]
    refine ⟨h, List.nodup_singleton k, ?_⟩
    intro a ha hb
    simp at hb
    subst hb
    exact (assocLookup_eq_none_iff g a).mp h3 ha
  · rw [if_neg h3]
    exact h

/-- The grouping fold preserves distinctness of the group keys. -/
theorem nodupKeys_groupFold (issues : List Issue)
    (acc : List (Str × List Issue)) (h : (acc.map Prod.fst).Nodup) :
    (((issues.foldl
        (fun groups issue => addToGroup groups issue.filename issue)
        acc)).map Prod.fst).Nodup := by
  induction issues generalizing acc with
  | nil => exact h
  | cons i rest ih =>
    rw [List.foldl_cons]
    exact ih _ (nodupKeys_addToGroup acc i.filename i h)

/-- C10: grouping issues by file partitions the input: the group
keys are pairwise distinct, every group is exactly the input-ordered
sublist of issues filed under its key (hence non-empty, keeping relative
order), and every issue occurs in the group keyed by its own filename. -/
theorem c10_grouping (issues : List Issue) :
    ((groupIssuesByFile issues).map Prod.fst).Nodup ∧
    (∀ k l, (k, l) ∈ groupIssuesByFile issues →
      l = issues.filter (fun i => i.filename == k) ∧ l ≠ []) ∧
    (∀ i ∈ issues,
      (i.filename, issues.filter (fun j => j.filename == i.filename))
        ∈ groupIssuesByFile issues ∧
      i ∈ issues.filter (fun j => j.filename == i.filename)) := by
  have hnd : ((groupIssuesByFile issues).map Prod.fst).Nodup :=
    nodupKeys_groupFold issues [] (by simp)
  refine ⟨hnd, fun k l hm => ?_, fun i hi => ?_⟩
  · have hl := assocLookup_of_mem _ _ _ hnd hm
    rw [groupIssuesByFile, assocLookup_groupFold] at hl
    simp only [assocLookup] at hl
    split at hl
    · cases hl
    · rename_i hne
      have hlf := Option.some.inj hl
      refine ⟨hlf.symm, ?_⟩
      rw [← hlf]
      intro hcon
      exact hne (by simp [hcon])
  · have hifilter : i ∈ issues.filter (fun j => j.filename == i.filename) :=
      List.mem_filter.mpr ⟨hi, by simp⟩
    have hne :
        ¬ ((issues.filter (fun j => j.filename == i.filename)).isEmpty
            = true) := by
      intro hcon
      rw [List.isEmpty_iff] at hcon
      rw [hcon] at hifilter
      simp at hifilter
    have hl : assocLookup (groupIssuesByFile issues) i.filename
        = some (issues.filter (fun j => j.filename == i.filename)) := by
      rw [groupIssuesByFile, assocLookup_groupFold]
      simp only [assocLookup]
      rw [if_neg hne]
    exact ⟨mem_of_assocLookup _ _ _ hl, hifilter⟩

/-- C10 (witness): the partition applied to the concrete mock issue
list — the single issue lands in the group keyed by its own filename. -/
theorem c10_grouping_witness :
    ("example.js".toList,
      extractIssuesFromComments.filter
        (fun j => j.filename == "example.js".toList))
      ∈ groupIssuesByFile extractIssuesFromComments :=
  ((c10_grouping extractIssuesFromComments).2.2
    ⟨"example.js".toList, "style".toList, "low".toList, some 10,
     "Missing semicolon".toList,
     "Add semicolon at end of statement".toList⟩ (by decide)).1

/-- The fix-summary body never coincides with the no-issues guard body:
they already differ at character 12 (' ' of "FixBot Results" versus the
newline after "FixBot"). -/
theorem fixSummaryBody_ne_noIssues (f t n : Nat) :
    fixSummaryBody f t n ≠ fixBotCommentBody noIssuesMsg := by
  intro h
  have h12 := congrArg (fun l => l[12]?) h
  simp only [fixSummaryBody] at h12
  rw [List.getElem?_append_left (by decide)] at h12
  exact absurd h12 (by decide)

/-- C9: the targeted-fix issue list is an admitted stub — it is the
constant hard-coded mock issue for `example.js`, independent of any
analysis results of the run, and since it is never empty the
"no issues found, run inspection first" guard comment is unreachable:
`applySpecificFixes` always proceeds to the fix loop and posts the
summary comment instead. -/
theorem c9_issue_source_is_stub :
    extractIssuesFromComments
      = [⟨"example.js".toList, "style".toList, "low".toList, some 10,
          "Missing semicolon".toList,
          "Add semicolon at end of statement".toList⟩] ∧
    extractIssuesFromComments ≠ [] ∧
    (∀ readContent genFix writeOk,
      (applySpecificFixes readContent genFix writeOk).1
        ≠ [Post.comment (fixBotCommentBody noIssuesMsg)]) := by
  refine ⟨rfl, by decide, fun r g w => ?_⟩
  simp only [applySpecificFixes]
  rw [if_neg (by decide)]
  intro h
  simp only [List.cons.injEq, Post.comment.injEq, and_true] at h
  exact fixSummaryBody_ne_noIssues _ _ _ h

/-- C9 (witness): the stub theorem applied at concrete oracles — the
no-issues guard comment is not what a targeted fix run posts. -/
theorem c9_stub_witness :
    (applySpecificFixes (fun _ => none) (fun _ => none) true).1
      ≠ [Post.comment (fixBotCommentBody noIssuesMsg)] :=
  c9_issue_source_is_stub.2.2 (fun _ => none) (fun _ => none) true
